import Mathlib

/-!
Verification of the master-slave electronic-load test orchestrator
(`MasterSlaveWorkerThread` in `src/leerundna_GUI.py`), as a shallow
embedding.  Float arithmetic of the source is modelled exactly over `ℚ`;
wall-clock instants (`time.time()`, `datetime.now()`) are inputs, one per
tick of the poll loop; serial-port reads that can fail are `Option ℚ`.
-/

namespace MSLoad

/-- The safety-relevant fields of `Settings` (src/leerundna_GUI.py, lines 91-111).
Only the fields the worker thread's tick loop reads are modelled; ports,
baud rate and e-mail settings do not influence the verified logic. -/
structure Settings where
  cutoff_voltage : ℚ
  cutoff_safety_enabled : Bool
  imbalance_check_enabled : Bool
  imbalance_limit : ℚ
  imbalance_transition : ℚ
  transition_duration : ℚ
  voltage_diff_limit : ℚ
deriving DecidableEq

/-- The accumulator state owned by the worker thread
(fields initialised in `__init__`, lines 383-395). -/
structure AccState where
  cumulative_energy_wh : ℚ
  cumulative_capacity_ah : ℚ
  last_measurement_time : Option ℚ
  last_total_power : ℚ
  last_total_current : ℚ
  last_avg_voltage : Option ℚ
  last_capacity_ah : ℚ
  dq_dv : ℚ
  dq_dv_voltage : ℚ
  dq_dv_valid : Bool
deriving DecidableEq

/-- The accumulator as initialised in `__init__` (lines 383-395). -/
def initAcc : AccState :=
  { cumulative_energy_wh := 0
    cumulative_capacity_ah := 0
    last_measurement_time := none
    last_total_power := 0
    last_total_current := 0
    last_avg_voltage := none
    last_capacity_ah := 0
    dq_dv := 0
    dq_dv_voltage := 0
    dq_dv_valid := false }

/-- Total of a reading pair: sum when both present, the single present one
otherwise, 0 when none (the `total_power` / `total_current` computation,
lines 840-852 and 1002-1014; the variable is initialised to 0.0). -/
def totalOf : Option ℚ → Option ℚ → ℚ
  | some a, some b => a + b
  | some a, none => a
  | none, some b => b
  | none, none => 0

/-- Average of a voltage pair: mean when both present, the single present
one otherwise, 0 when none (the `avg_voltage` computation, lines 854-859
and 1016-1021; the variable is initialised to 0.0). -/
def avgOf : Option ℚ → Option ℚ → ℚ
  | some a, some b => (a + b) / 2
  | some a, none => a
  | none, some b => b
  | none, none => 0

/-- `_calculate_energy_increment` (lines 614-622): trapezoidal increments
`(P1+P2)/2 * dt` for energy and `(I1+I2)/2 * dt` for capacity, `dt` in hours. -/
def calculate_energy_increment (last_total_power last_total_current
    current_power current_amps delta_time_hours : ℚ) : ℚ × ℚ :=
  (((last_total_power + current_power) / 2) * delta_time_hours,
   ((last_total_current + current_amps) / 2) * delta_time_hours)

/-- The per-tick integration block of the run loop (lines 861-876 and
1023-1038): when a previous measurement time exists, add the trapezoidal
increments for the elapsed delta; then record the current time and totals. -/
def integrateTick (st : AccState) (current_time total_power total_current : ℚ) :
    AccState :=
  let st1 :=
    match st.last_measurement_time with
    | some lastT =>
        let delta_time_hours := (current_time - lastT) / 3600
        let inc := calculate_energy_increment st.last_total_power
          st.last_total_current total_power total_current delta_time_hours
        { st with
            cumulative_energy_wh := st.cumulative_energy_wh + inc.1
            cumulative_capacity_ah := st.cumulative_capacity_ah + inc.2 }
    | none => st
  { st1 with
      last_measurement_time := some current_time
      last_total_power := total_power
      last_total_current := total_current }

/-- `_calculate_dq_dv` (lines 624-657), returning the reported triple
`(dq_dv, dq_dv_voltage, valid)` together with the mutated thread state.
With no baseline the baseline is established and `(0, V, false)` reported;
with `|dV| < 0.01` the stored triple is reported and nothing changes;
otherwise `dQ/dV` at the midpoint voltage is reported, stored, and the
baseline moves to the current voltage. -/
def calculate_dq_dv (st : AccState) (current_voltage current_capacity : ℚ) :
    (ℚ × ℚ × Bool) × AccState :=
  match st.last_avg_voltage with
  | none =>
      ((0, current_voltage, false),
       { st with
           last_avg_voltage := some current_voltage
           last_capacity_ah := current_capacity })
  | some lastV =>
      let dV := current_voltage - lastV
      let dQ := current_capacity - st.last_capacity_ah
      if |dV| < 1 / 100 then
        ((st.dq_dv, st.dq_dv_voltage, st.dq_dv_valid), st)
      else
        let d := dQ / dV
        let vmid := (current_voltage + lastV) / 2
        ((d, vmid, true),
         { st with
             last_avg_voltage := some current_voltage
             last_capacity_ah := current_capacity
             dq_dv := d
             dq_dv_voltage := vmid
             dq_dv_valid := true })

/-- One pair of `_calculate_imbalances` (lines 1191-1211): when both
readings are present and their average is positive, `|a-b|/avg*100`,
otherwise the initial 0.0. -/
def imbalancePair : Option ℚ → Option ℚ → ℚ
  | some a, some b =>
      let avg := (a + b) / 2
      if 0 < avg then |a - b| / avg * 100 else 0
  | _, _ => 0

/-- `_calculate_imbalances` (lines 1191-1211): the (power, current, voltage)
imbalance triple, each pair handled by the identical guarded pattern. -/
def calculate_imbalances (mp sp mi si mv sv : Option ℚ) : ℚ × ℚ × ℚ :=
  (imbalancePair mp sp, imbalancePair mi si, imbalancePair mv sv)

/-- A CSV cell of the row file: the empty string, a numeric value
(the source formats it with `%.6g`; the numeric value is modelled exactly),
or free text (the timestamp column). -/
inductive Cell
  | empty
  | num (v : ℚ)
  | str (s : String)
deriving DecidableEq

/-- Serialization of one optional raw reading in `_write_csv_row`
(lines 563-568): `"" if x is None else f"..."`. -/
def serializeReading : Option ℚ → Cell
  | none => Cell.empty
  | some v => Cell.num v

/-- `_write_csv_row` (lines 553-585): the ordered row written to the row
file.  The timestamp string and relative seconds are passed in. -/
def write_csv_row (ts : String) (rel : ℤ) (step_idx : ℕ) (total_set_power : ℚ)
    (mv mi mp sv si sp : Option ℚ)
    (power_imb current_imb voltage_imb total_power total_current avg_voltage
     cumulative_energy_wh cumulative_capacity_ah dq_dv dq_dv_voltage : ℚ) :
    List Cell :=
  [Cell.str ts, Cell.num (rel : ℚ), Cell.num (step_idx : ℚ),
   Cell.num total_set_power,
   serializeReading mv, serializeReading mi, serializeReading mp,
   serializeReading sv, serializeReading si, serializeReading sp,
   Cell.num total_power, Cell.num total_current, Cell.num avg_voltage,
   Cell.num power_imb, Cell.num current_imb, Cell.num voltage_imb,
   Cell.num cumulative_energy_wh, Cell.num cumulative_capacity_ah,
   Cell.num dq_dv, Cell.num dq_dv_voltage]

/-- Identity of one command of the `_safe_shutdown` sequence (lines 659-713). -/
inductive SCmd
  | pow0 (toMaster : Bool)
  | loadOff (toMaster : Bool)
  | inputOff (toMaster : Bool)
  | parallelOff (toMaster : Bool)
  | setLocal (toMaster : Bool)
deriving DecidableEq

/-- One try/except-wrapped command attempt of `_safe_shutdown`: the command
is always issued; `fails c = true` models its `except` branch being taken
(the exception is caught and only logged). -/
def attemptCmd (fails : SCmd → Bool) (c : SCmd) : SCmd × Bool := (c, fails c)

/-- `_safe_shutdown` (lines 659-713) as the ordered list of attempted
commands with their failure flags.  Stage 1 sets power to 0 on master then
slave; stage 2 turns load off then input off, master then slave; stage 3
disables parallel mode on both; stage 4 returns both to local control.
Every command is individually wrapped in try/except, so the attempted
sequence does not depend on `fails`. -/
def safe_shutdown_attempts (fails : SCmd → Bool) : List (SCmd × Bool) :=
  ([true, false].map fun m => attemptCmd fails (SCmd.pow0 m)) ++
  ([true, false].foldr
    (fun m acc => attemptCmd fails (SCmd.loadOff m) ::
      attemptCmd fails (SCmd.inputOff m) :: acc) []) ++
  ([true, false].map fun m => attemptCmd fails (SCmd.parallelOff m)) ++
  ([true, false].map fun m => attemptCmd fails (SCmd.setLocal m))

/-- Externally visible events of the worker thread: instrument commands
(`toMaster = true` targets the master controller), the start of a
`_safe_shutdown` invocation, log markers for the parallel-mode
configuration block, and a row written to the row file (identified by its
tick index). -/
inductive Ev
  | powCmd (toMaster : Bool) (v : ℚ)
  | loadOnCmd (toMaster : Bool)
  | loadOffCmd (toMaster : Bool)
  | inputOffCmd (toMaster : Bool)
  | parallelOffCmd (toMaster : Bool)
  | setLocalCmd (toMaster : Bool)
  | shutdownBegin
  | condConfigured
  | condWarnLogged
  | rowWritten (idx : ℕ)
deriving DecidableEq

/-- The event a shutdown command issues. -/
def scmdToEv : SCmd → Ev
  | SCmd.pow0 m => Ev.powCmd m 0
  | SCmd.loadOff m => Ev.loadOffCmd m
  | SCmd.inputOff m => Ev.inputOffCmd m
  | SCmd.parallelOff m => Ev.parallelOffCmd m
  | SCmd.setLocal m => Ev.setLocalCmd m

/-- Event trace of one `_safe_shutdown` invocation. -/
def shutdownEvents : List Ev :=
  Ev.shutdownBegin ::
    (safe_shutdown_attempts (fun _ => false)).map fun p => scmdToEv p.1

/-- The defensive `finally` block of `run` (lines 1154-1168): for each
controller, power to 0, load off, input off, parallel off, local mode. -/
def finallyEvents : List Ev :=
  [Ev.powCmd true 0, Ev.loadOffCmd true, Ev.inputOffCmd true,
   Ev.parallelOffCmd true, Ev.setLocalCmd true,
   Ev.powCmd false 0, Ev.loadOffCmd false, Ev.inputOffCmd false,
   Ev.parallelOffCmd false, Ev.setLocalCmd false]

/-- The safety-trip reasons of the tick loop (the `reason` strings built at
lines 902, 911, 920 and 938). -/
inductive Reason
  | powerImb
  | currentImb
  | voltageImb
  | cutoff
deriving DecidableEq

/-- Environment data consumed by one iteration of the poll loop: the
wall-clock instant `t` (`time.time()`; the source samples the clock a few
times within one iteration, all within milliseconds — one instant per tick
models this), the six optional readings, and whether the external stop
flag becomes set during this tick's inter-poll sleep. -/
structure TickData where
  t : ℚ
  mv : Option ℚ
  mi : Option ℚ
  mp : Option ℚ
  sv : Option ℚ
  si : Option ℚ
  sp : Option ℚ
  stop_during_sleep : Bool
deriving DecidableEq

/-- Guard of the imbalance safety checks (lines 900, 909, 918): both
readings present and strictly positive. -/
def bothPresentPos : Option ℚ → Option ℚ → Bool
  | some a, some b => if 0 < a ∧ 0 < b then true else false
  | _, _ => false

/-- One side of the voltage-cutoff condition (lines 936-937): the reading
is present and at or below the cutoff voltage. -/
def breachesCutoff (cv : ℚ) : Option ℚ → Bool
  | some v => if v ≤ cv then true else false
  | none => false

/-- The full voltage-cutoff condition of one tick: either controller's
voltage reading breaches. -/
def tickBreaches (s : Settings) (d : TickData) : Bool :=
  breachesCutoff s.cutoff_voltage d.mv || breachesCutoff s.cutoff_voltage d.sv

/-- The per-tick safety evaluation (lines 897-942 / 1059-1104), first match
wins: power imbalance, then current imbalance, then voltage imbalance (all
three only when imbalance checking is enabled, each guarded by both
readings present and positive), then the voltage cutoff (only when cutoff
safety is enabled).  `limit` is the currently active imbalance limit. -/
def tripCheck (s : Settings) (limit : ℚ) (d : TickData)
    (power_imb current_imb voltage_imb : ℚ) : Option Reason :=
  if s.imbalance_check_enabled && bothPresentPos d.mp d.sp &&
      (if limit * 100 < power_imb then true else false) then
    some Reason.powerImb
  else if s.imbalance_check_enabled && bothPresentPos d.mi d.si &&
      (if limit * 100 < current_imb then true else false) then
    some Reason.currentImb
  else if s.imbalance_check_enabled && bothPresentPos d.mv d.sv &&
      (if s.voltage_diff_limit * 100 < voltage_imb then true else false) then
    some Reason.voltageImb
  else if s.cutoff_safety_enabled && tickBreaches s d then
    some Reason.cutoff
  else none

/-- Result of the body of one loop iteration. -/
structure TickResult where
  acc : AccState
  limit : ℚ
  trip : Option Reason
  events : List Ev
deriving DecidableEq

/-- The body of one iteration of either step loop (lines 817-956 cutoff
variant, lines 979-1118 fixed-duration variant — the bodies are
identical): derive totals and average, integrate, compute dQ/dV, update
the transition-phase imbalance limit (lines 889-892 / 1051-1054), evaluate
the safety checks, and — only when no check tripped — write the CSV row
(when the writer is open).  On a trip the body breaks out before the row
write, so no row event is produced for the tick. -/
def tickBody (s : Settings) (csvOpen : Bool) (limit : ℚ)
    (transition_start : ℚ) (acc : AccState) (n : ℕ) (d : TickData) :
    TickResult :=
  let total_power := totalOf d.mp d.sp
  let total_current := totalOf d.mi d.si
  let avg_voltage := avgOf d.mv d.sv
  let acc1 := integrateTick acc d.t total_power total_current
  let dqres := calculate_dq_dv acc1 avg_voltage acc1.cumulative_capacity_ah
  let acc2 := dqres.2
  let limit2 :=
    if s.transition_duration < d.t - transition_start then s.imbalance_limit
    else limit
  let imbs := calculate_imbalances d.mp d.sp d.mi d.si d.mv d.sv
  let trip := tripCheck s limit2 d imbs.1 imbs.2.1 imbs.2.2
  { acc := acc2
    limit := limit2
    trip := trip
    events :=
      match trip with
      | some _ => []
      | none => if csvOpen then [Ev.rowWritten n] else [] }

/-- How a step's loop ended: input data exhausted with the loop still live,
a safety trip, the cooperative stop flag, or (fixed-duration steps only)
the elapsed-time guard. -/
inductive StepExit
  | ranOut
  | tripped (r : Reason)
  | stopped
  | timeUp
deriving DecidableEq

/-- Result of running one profile step's loop. -/
structure StepOutcome where
  events : List Ev
  exit : StepExit
  acc : AccState
  stopFlag : Bool
  nextIdx : ℕ
deriving DecidableEq

/-- The while guard's time condition: a fixed-duration loop runs while
`time.time() - step_start < dur_seconds` (line 979); the cutoff loop
(line 819) has no time condition. -/
def timeExpired (fd : Option ℚ) (step_start t : ℚ) : Bool :=
  match fd with
  | some dur => if dur ≤ t - step_start then true else false
  | none => false

/-- One profile step's loop (the `while` at line 819 for cutoff steps,
line 979 for fixed-duration steps), followed by the post-loop stop check
(lines 969-972 / 1130-1133).  On a trip the source calls `_safe_shutdown`,
sets the stop flag and breaks; the post-loop check then sees the stop flag
and invokes `_safe_shutdown` a second time before returning.  A stop
observed during the inter-poll sleep breaks after the row was written and
leads to the single post-loop `_safe_shutdown`. -/
def runStepLoop (s : Settings) (fd : Option ℚ) (step_start : ℚ)
    (csvOpen : Bool) :
    List TickData → AccState → ℚ → Bool → ℕ → StepOutcome
  | [], acc, _limit, stopFlag, n =>
      if stopFlag then
        { events := shutdownEvents, exit := StepExit.stopped, acc := acc,
          stopFlag := true, nextIdx := n }
      else
        { events := [], exit := StepExit.ranOut, acc := acc,
          stopFlag := false, nextIdx := n }
  | d :: rest, acc, limit, stopFlag, n =>
      if stopFlag then
        { events := shutdownEvents, exit := StepExit.stopped, acc := acc,
          stopFlag := true, nextIdx := n }
      else if timeExpired fd step_start d.t then
        { events := [], exit := StepExit.timeUp, acc := acc,
          stopFlag := false, nextIdx := n }
      else
        let r := tickBody s csvOpen limit step_start acc n d
        match r.trip with
        | some reason =>
            { events := shutdownEvents ++ shutdownEvents,
              exit := StepExit.tripped reason, acc := r.acc,
              stopFlag := true, nextIdx := n + 1 }
        | none =>
            if d.stop_during_sleep then
              { events := r.events ++ shutdownEvents,
                exit := StepExit.stopped, acc := r.acc,
                stopFlag := true, nextIdx := n + 1 }
            else
              let o := runStepLoop s fd step_start csvOpen rest r.acc
                r.limit false (n + 1)
              { events := r.events ++ o.events, exit := o.exit,
                acc := o.acc, stopFlag := o.stopFlag, nextIdx := o.nextIdx }

/-- One row of the profile as executed (`ProfileRow`, lines 83-88, with the
duration already converted to seconds as at lines 976-977), together with
the environment for the step: the wall-clock instant at the step's start
(also the start of the transition window, lines 811-815), whether the
external stop flag is set before the step begins (line 775), and the tick
environment data. -/
structure StepInput where
  total_power : ℚ
  cutoff : Bool
  dur_seconds : ℚ
  step_start : ℚ
  stop_before : Bool
  ticks : List TickData
deriving DecidableEq

/-- Environment of one whole `run` invocation: whether opening the serial
ports raises (lines 735-740), whether the parallel-mode configuration
block raises (lines 751-763), whether a CSV writer is open, and the
profile with its per-step environments. -/
structure RunInput where
  openFails : Bool
  condFails : Bool
  csvOpen : Bool
  steps : List StepInput
deriving DecidableEq

/-- How a whole `run` ended. -/
inductive RunExit
  | openFailed
  | tripped (r : Reason)
  | stopped
  | completed
  | ranOut
deriving DecidableEq

/-- The profile-execution loop of `run` (lines 773-1148): for each step,
check the stop flag (a set flag triggers `_safe_shutdown` and returns),
command `total_power / 2` to each controller and enable the loads
(lines 781-800), run the step's loop, and on normal (time-up) completion
set both controllers to 0 W and disable the loads (lines 1136-1142)
before the next step.  After the last step `_safe_shutdown` runs with the
completion reason (lines 1146-1148). -/
def runSteps (s : Settings) (csvOpen : Bool) :
    List StepInput → AccState → Bool → ℕ → List Ev × RunExit
  | [], _acc, _stopFlag, _n => (shutdownEvents, RunExit.completed)
  | st :: rest, acc, stopFlag, n =>
      if stopFlag || st.stop_before then (shutdownEvents, RunExit.stopped)
      else
        let half := st.total_power / 2
        let startEvents := [Ev.powCmd true half, Ev.powCmd false half,
          Ev.loadOnCmd true, Ev.loadOnCmd false]
        let o := runStepLoop s (if st.cutoff then none else some st.dur_seconds)
          st.step_start csvOpen st.ticks acc s.imbalance_transition false n
        match o.exit with
        | StepExit.timeUp =>
            let completeEvents := [Ev.powCmd true 0, Ev.powCmd false 0,
              Ev.loadOffCmd true, Ev.loadOffCmd false]
            let rec2 := runSteps s csvOpen rest o.acc o.stopFlag o.nextIdx
            (startEvents ++ o.events ++ completeEvents ++ rec2.1, rec2.2)
        | StepExit.tripped r => (startEvents ++ o.events, RunExit.tripped r)
        | StepExit.stopped => (startEvents ++ o.events, RunExit.stopped)
        | StepExit.ranOut => (startEvents ++ o.events, RunExit.ranOut)

/-- The whole `run` method (lines 727-1189): an open failure logs an error
and returns before any step (only the `finally` block runs); a failure of
the parallel-mode configuration block is caught, logged as a warning, and
execution continues into the profile (lines 762-763); the `finally` block
always issues its best-effort zero-power/off/local commands at the end. -/
def runWorker (s : Settings) (inp : RunInput) : List Ev × RunExit :=
  if inp.openFails then (finallyEvents, RunExit.openFailed)
  else
    let condEvents :=
      if inp.condFails then [Ev.condWarnLogged] else [Ev.condConfigured]
    let r := runSteps s inp.csvOpen inp.steps initAcc false 0
    (condEvents ++ r.1 ++ finallyEvents, r.2)

/-- Number of `_safe_shutdown` invocations recorded in a trace. -/
def countShutdowns : List Ev → ℕ
  | [] => 0
  | Ev.shutdownBegin :: rest => countShutdowns rest + 1
  | _ :: rest => countShutdowns rest

/-- Every `POW` command in the trace carries the value 0. -/
def allPowZero : List Ev → Bool
  | [] => true
  | Ev.powCmd _ v :: rest => (if v = 0 then true else false) && allPowZero rest
  | _ :: rest => allPowZero rest

/-- The trace contains no `_safe_shutdown` invocation. -/
def noShutdown : List Ev → Bool
  | [] => true
  | Ev.shutdownBegin :: _ => false
  | _ :: rest => noShutdown rest

/-- After the first `_safe_shutdown` invocation of the trace, every `POW`
command carries the value 0 (vacuously true when no shutdown occurs). -/
def noNonzeroPowAfterShutdown : List Ev → Bool
  | [] => true
  | Ev.shutdownBegin :: rest => allPowZero rest
  | _ :: rest => noNonzeroPowAfterShutdown rest

/-- The event is a row written to the row file. -/
def isRow : Ev → Bool
  | Ev.rowWritten _ => true
  | _ => false

/-- The trace consists only of row writes. -/
def onlyRows (l : List Ev) : Bool := l.all isRow

/-- Row events for `k` consecutive tick indices starting at `n`. -/
def rowIdxs : ℕ → ℕ → List Ev
  | _, 0 => []
  | n, k + 1 => Ev.rowWritten n :: rowIdxs (n + 1) k

/-- The step exit was a safety trip. -/
def isTripped : StepExit → Bool
  | StepExit.tripped _ => true
  | _ => false

/-- The shutdown invocations a step loop's exit path performs: a trip
invokes `_safe_shutdown` at the trip site and once more in the post-loop
stop check; a stop invokes it once; time-up and exhausted input invoke
none inside the loop. -/
def exitSuffix : StepExit → List Ev
  | StepExit.tripped _ => shutdownEvents ++ shutdownEvents
  | StepExit.stopped => shutdownEvents
  | _ => []

/-- Shutdown count contributed by a step exit. -/
def stepExitShutdownCount : StepExit → ℕ
  | StepExit.tripped _ => 2
  | StepExit.stopped => 1
  | _ => 0

/-- Shutdown count of a whole run, by its exit. -/
def runExitShutdownCount : RunExit → ℕ
  | RunExit.tripped _ => 2
  | RunExit.stopped => 1
  | RunExit.completed => 1
  | _ => 0

/-- The integration block folded over a run of ticks, each given as
(wall-clock time, total power, total current). -/
def integrateAll : AccState → List (ℚ × ℚ × ℚ) → AccState
  | st, [] => st
  | st, x :: rest => integrateAll (integrateTick st x.1 x.2.1 x.2.2) rest

/-- Modelled from the spec: the tail of the trapezoidal sum
`Σ (P[i-1]+P[i])/2 · Δt[i]` (Δt in hours), given the previous sample
`x = (t, P)` and the remaining samples. -/
def spec_trapezoidal_sum_from : ℚ × ℚ → List (ℚ × ℚ) → ℚ
  | _, [] => 0
  | x, y :: rest =>
      (x.2 + y.2) / 2 * ((y.1 - x.1) / 3600) + spec_trapezoidal_sum_from y rest

/-- Modelled from the spec: the trapezoidal sum
`Σ_{i=2..N} (P[i-1]+P[i])/2 · Δt[i]` over samples `(t_i, P_i)`,
with `Δt[i] = (t_i - t_{i-1})` converted to hours. -/
def spec_trapezoidal_sum : List (ℚ × ℚ) → ℚ
  | [] => 0
  | x :: rest => spec_trapezoidal_sum_from x rest

/-- A thread state with an established dQ/dV baseline, used as a concrete
evaluation point. -/
def stW : AccState :=
  { initAcc with
      last_avg_voltage := some 5, dq_dv := 7, dq_dv_voltage := 3,
      dq_dv_valid := true }

/-- Concrete settings for evaluation: imbalance checking enabled with the
source's default limits (10% normal, 25% transition, 120 s window, 10%
voltage), cutoff safety disabled. -/
def sTrip : Settings :=
  { cutoff_voltage := 180
    cutoff_safety_enabled := false
    imbalance_check_enabled := true
    imbalance_limit := 1 / 10
    imbalance_transition := 1 / 4
    transition_duration := 120
    voltage_diff_limit := 1 / 10 }

/-- A concrete tick with a gross power imbalance (300 W vs 100 W, 100%
imbalance against the 25% transition threshold) and balanced current and
voltage readings. -/
def dTrip : TickData :=
  { t := 0, mv := some 10, mi := some 5, mp := some 300,
    sv := some 10, si := some 5, sp := some 100, stop_during_sleep := false }

/-- A single run-until-cutoff profile step whose first tick trips the
power-imbalance check. -/
def stepTrip : StepInput :=
  { total_power := 100, cutoff := true, dur_seconds := 0, step_start := 0,
    stop_before := false, ticks := [dTrip] }

/-- A run environment executing just `stepTrip` with the row file open. -/
def inpTrip : RunInput :=
  { openFails := false, condFails := false, csvOpen := true,
    steps := [stepTrip] }

/-- A run environment whose parallel-mode conditioning block fails, with a
one-step fixed-duration profile and no tick data. -/
def inpCond : RunInput :=
  { openFails := false, condFails := true, csvOpen := false,
    steps := [{ total_power := 100, cutoff := false, dur_seconds := 10,
                step_start := 0, stop_before := false, ticks := [] }] }

/-- A tick at elapsed time 10 s (readings all absent; they are irrelevant
to the time guard). -/
def dExp : TickData :=
  { t := 10, mv := none, mi := none, mp := none, sv := none, si := none,
    sp := none, stop_during_sleep := false }

/-- Concrete settings with cutoff safety enabled at 180 V and imbalance
checking disabled. -/
def sCut : Settings :=
  { cutoff_voltage := 180
    cutoff_safety_enabled := true
    imbalance_check_enabled := false
    imbalance_limit := 1 / 10
    imbalance_transition := 1 / 4
    transition_duration := 120
    voltage_diff_limit := 1 / 10 }

/-- A concrete tick whose voltage readings (100 V) breach the 180 V
cutoff. -/
def dCut : TickData :=
  { t := 0, mv := some 100, mi := some 5, mp := some 100,
    sv := some 100, si := some 5, sp := some 100, stop_during_sleep := false }

/-!  Theorems.  -/

/-- C8: whenever the safe-shutdown sequence runs, it executes for both
controllers, in order: (1) power to 0, (2) load off then input off,
(3) parallel mode off, (4) local control — and because every command is
individually wrapped in try/except, the attempted command sequence is the
same for every pattern of individual command failures: no failure prevents
any remaining command, on either controller, from being attempted. -/
theorem c8_safe_shutdown_sequence :
    ∀ fails : SCmd → Bool,
      (safe_shutdown_attempts fails).map Prod.fst =
        [SCmd.pow0 true, SCmd.pow0 false,
         SCmd.loadOff true, SCmd.inputOff true,
         SCmd.loadOff false, SCmd.inputOff false,
         SCmd.parallelOff true, SCmd.parallelOff false,
         SCmd.setLocal true, SCmd.setLocal false] :=
  fun _ => rfl

/-- C9: in every row built by `_write_csv_row`, each of the six raw
reading fields is the serialization of the corresponding optional
reading; an absent reading serializes to the empty cell, a present one to
its numeric cell, and the empty cell differs from every numeric cell — in
particular from zero. -/
theorem c9_missing_readings_empty :
    ∀ (ts : String) (rel : ℤ) (step_idx : ℕ) (tsp : ℚ)
      (mv mi mp sv si sp : Option ℚ)
      (pimb cimb vimb tp tc av ce cc dq dqv : ℚ),
      ((write_csv_row ts rel step_idx tsp mv mi mp sv si sp
          pimb cimb vimb tp tc av ce cc dq dqv).drop 4).take 6 =
        [serializeReading mv, serializeReading mi, serializeReading mp,
         serializeReading sv, serializeReading si, serializeReading sp] ∧
      serializeReading none = Cell.empty ∧
      (∀ v : ℚ, serializeReading (some v) = Cell.num v) ∧
      (∀ v : ℚ, Cell.empty ≠ Cell.num v) := by
  intro ts rel step_idx tsp mv mi mp sv si sp pimb cimb vimb tp tc av ce cc dq dqv
  exact ⟨rfl, rfl, fun _ => rfl, fun v h => Cell.noConfusion h⟩

/-- C6 (amended): the imbalance of a pair `(a, b)` equals
`|a-b| / ((a+b)/2) * 100` whenever both readings are present and their
average is positive (in particular for all positive `a`, `b`), it is
symmetric, and it equals 0 whenever `(a+b)/2 ≤ 0` or either reading is
absent.  (The claim's stronger clause — zero whenever `a ≤ 0` or `b ≤ 0` —
fails: the source only tests the average, see the counterexample.) -/
theorem c6_amended_imbalance :
    (∀ a b : ℚ, 0 < (a + b) / 2 →
      imbalancePair (some a) (some b) = |a - b| / ((a + b) / 2) * 100) ∧
    (∀ x y : Option ℚ, imbalancePair x y = imbalancePair y x) ∧
    (∀ a b : ℚ, (a + b) / 2 ≤ 0 → imbalancePair (some a) (some b) = 0) ∧
    (∀ y : Option ℚ, imbalancePair none y = 0 ∧ imbalancePair y none = 0) := by
  refine ⟨?_, ?_, ?_, ?_⟩
  · intro a b h
    simp only [imbalancePair]
    rw [if_pos h]
  · intro x y
    cases x <;> cases y <;> simp [imbalancePair, add_comm, abs_sub_comm]
  · intro a b h
    simp only [imbalancePair]
    rw [if_neg (not_lt.mpr h)]
  · intro y
    cases y <;> exact ⟨rfl, rfl⟩

/-- C6 counterexample: with `a = -1 ≤ 0` and `b = 3` the pair average is
positive, so the source computes `400`, not the `0` the claim requires for
`a ≤ 0`. -/
theorem c6_counterexample :
    ((-1 : ℚ) ≤ 0) ∧ imbalancePair (some (-1)) (some 3) = 400 ∧
      (400 : ℚ) ≠ 0 := by
  refine ⟨by norm_num, ?_, by norm_num⟩
  simp only [imbalancePair]
  norm_num

/-- C6 witness: the amended theorem evaluated at the positive pair (1, 3)
and at the pair (-2, 1) whose average is non-positive. -/
theorem c6_amended_imbalance_witness :
    imbalancePair (some 1) (some 3) =
      |(1 : ℚ) - 3| / (((1 : ℚ) + 3) / 2) * 100 ∧
    imbalancePair (some (-2)) (some 1) = 0 :=
  ⟨c6_amended_imbalance.1 1 3 (by norm_num),
   c6_amended_imbalance.2.2.1 (-2) 1 (by norm_num)⟩

/-- C7: on a tick with an established baseline `b`, when `|V - b| < 0.01`
the previously stored dQ/dV value, reference voltage and validity flag are
reported and the whole state (including the baseline) is unchanged; when
`|V - b| ≥ 0.01` the value becomes `ΔQ/ΔV`, the reference voltage the
midpoint, the validity flag true, and the baseline moves to `V`. -/
theorem c7_dqdv_threshold :
    ∀ (st : AccState) (b v q : ℚ), st.last_avg_voltage = some b →
      (|v - b| < 1 / 100 →
        calculate_dq_dv st v q =
          ((st.dq_dv, st.dq_dv_voltage, st.dq_dv_valid), st)) ∧
      (1 / 100 ≤ |v - b| →
        calculate_dq_dv st v q =
          (((q - st.last_capacity_ah) / (v - b), (v + b) / 2, true),
           { st with
               last_avg_voltage := some v, last_capacity_ah := q,
               dq_dv := (q - st.last_capacity_ah) / (v - b),
               dq_dv_voltage := (v + b) / 2, dq_dv_valid := true })) := by
  intro st b v q h
  constructor
  · intro hlt
    simp only [calculate_dq_dv, h]
    rw [if_pos hlt]
  · intro hge
    simp only [calculate_dq_dv, h]
    rw [if_neg (not_lt.mpr hge)]

/-- C7 witness: the threshold theorem evaluated at the baseline 5 with
`V = 5` (no movement, everything retained) and with `V = 6` (movement of
1 V, value `(2-0)/1 = 2` at midpoint `11/2`, marked valid). -/
theorem c7_dqdv_threshold_witness :
    calculate_dq_dv stW 5 2 = ((7, 3, true), stW) ∧
    calculate_dq_dv stW 6 2 = ((2, 11 / 2, true),
      { stW with
          last_avg_voltage := some 6, last_capacity_ah := 2,
          dq_dv := 2, dq_dv_voltage := 11 / 2, dq_dv_valid := true }) := by
  have h1 := (c7_dqdv_threshold stW 5 5 2 rfl).1 (by norm_num)
  have h2 := (c7_dqdv_threshold stW 5 6 2 rfl).2 (by norm_num)
  refine ⟨?_, ?_⟩
  · rw [h1]
    simp [stW, initAcc]
  · rw [h2]
    norm_num [stW, initAcc]

/-- C10: when both voltage readings are absent, the average voltage is the
initial 0.0, and that 0 is passed to `_calculate_dq_dv` like a measured
voltage: with no baseline it establishes the baseline at 0 V; with an
established baseline `b` at distance at least 0.01 V from 0 it produces a
valid dQ/dV value computed against 0 V at midpoint `b/2`; and the tick
body passes exactly this 0 to the computation. -/
theorem c10_absent_voltage_zero :
    avgOf none none = 0 ∧
    (∀ (st : AccState) (q : ℚ), st.last_avg_voltage = none →
      calculate_dq_dv st (avgOf none none) q =
        ((0, 0, false),
         { st with last_avg_voltage := some 0, last_capacity_ah := q })) ∧
    (∀ (st : AccState) (q b : ℚ), st.last_avg_voltage = some b →
      1 / 100 ≤ |0 - b| →
      (calculate_dq_dv st (avgOf none none) q).1 =
        ((q - st.last_capacity_ah) / (0 - b), (0 + b) / 2, true)) ∧
    (∀ (s : Settings) (csvOpen : Bool) (limit ts : ℚ) (acc : AccState)
      (n : ℕ) (d : TickData), d.mv = none → d.sv = none →
      (tickBody s csvOpen limit ts acc n d).acc =
        (calculate_dq_dv
          (integrateTick acc d.t (totalOf d.mp d.sp) (totalOf d.mi d.si)) 0
          (integrateTick acc d.t (totalOf d.mp d.sp)
            (totalOf d.mi d.si)).cumulative_capacity_ah).2) := by
  refine ⟨rfl, ?_, ?_, ?_⟩
  · intro st q h
    simp only [avgOf, calculate_dq_dv, h]
  · intro st q b h hge
    simp only [avgOf, calculate_dq_dv, h]
    rw [if_neg (not_lt.mpr hge)]
  · intro s csvOpen limit ts acc n d hmv hsv
    simp only [tickBody, hmv, hsv, avgOf]

/-- C10 witness: the theorem evaluated with no baseline (establishing the
baseline at 0 V) and with the established baseline 5 (producing the valid
value `(2-0)/(0-5)` at midpoint `5/2`). -/
theorem c10_absent_voltage_zero_witness :
    calculate_dq_dv initAcc (avgOf none none) 3 =
      ((0, 0, false),
       { initAcc with last_avg_voltage := some 0, last_capacity_ah := 3 }) ∧
    (calculate_dq_dv stW (avgOf none none) 2).1 =
      ((2 - stW.last_capacity_ah) / (0 - 5), (0 + 5) / 2, true) :=
  ⟨c10_absent_voltage_zero.2.1 initAcc 3 rfl,
   c10_absent_voltage_zero.2.2.1 stW 2 5 rfl (by norm_num)⟩

/-- Generalized trapezoid invariant of the integration block: from a state
with a recorded previous sample, folding further ticks adds exactly the
spec's trapezoidal tail. -/
theorem integrateAll_from :
    ∀ (ds : List (ℚ × ℚ × ℚ)) (st : AccState) (t0 : ℚ),
      st.last_measurement_time = some t0 →
      (integrateAll st ds).cumulative_energy_wh =
        st.cumulative_energy_wh +
          spec_trapezoidal_sum_from (t0, st.last_total_power)
            (ds.map fun x => (x.1, x.2.1)) ∧
      (integrateAll st ds).cumulative_capacity_ah =
        st.cumulative_capacity_ah +
          spec_trapezoidal_sum_from (t0, st.last_total_current)
            (ds.map fun x => (x.1, x.2.2)) := by
  intro ds
  induction ds with
  | nil =>
      intro st t0 h
      simp [integrateAll, spec_trapezoidal_sum_from]
  | cons x rest ih =>
      intro st t0 h
      have hst : (integrateTick st x.1 x.2.1 x.2.2).last_measurement_time =
          some x.1 := by
        simp [integrateTick]
      obtain ⟨h1, h2⟩ := ih (integrateTick st x.1 x.2.1 x.2.2) x.1 hst
      simp only [integrateAll, List.map_cons, spec_trapezoidal_sum_from]
      rw [h1, h2]
      constructor
      · simp only [integrateTick, calculate_energy_increment, h]
        ring
      · simp only [integrateTick, calculate_energy_increment, h]
        ring

/-- C5: after any run of ticks the cumulative energy equals the spec's
trapezoidal sum over the per-tick total powers, the cumulative capacity
the analogous sum over total currents (exactly, over ℚ), and a single
first tick contributes zero to both accumulators while establishing the
time baseline. -/
theorem c5_trapezoidal_integration :
    ∀ ds : List (ℚ × ℚ × ℚ),
      (integrateAll initAcc ds).cumulative_energy_wh =
        spec_trapezoidal_sum (ds.map fun x => (x.1, x.2.1)) ∧
      (integrateAll initAcc ds).cumulative_capacity_ah =
        spec_trapezoidal_sum (ds.map fun x => (x.1, x.2.2)) ∧
      (∀ d : ℚ × ℚ × ℚ,
        (integrateAll initAcc [d]).cumulative_energy_wh = 0 ∧
        (integrateAll initAcc [d]).cumulative_capacity_ah = 0 ∧
        (integrateAll initAcc [d]).last_measurement_time = some d.1) := by
  intro ds
  have hsingle : ∀ d : ℚ × ℚ × ℚ,
      (integrateAll initAcc [d]).cumulative_energy_wh = 0 ∧
      (integrateAll initAcc [d]).cumulative_capacity_ah = 0 ∧
      (integrateAll initAcc [d]).last_measurement_time = some d.1 := by
    intro d
    refine ⟨?_, ?_, ?_⟩ <;> simp [integrateAll, integrateTick, initAcc]
  have hmain :
      (integrateAll initAcc ds).cumulative_energy_wh =
        spec_trapezoidal_sum (ds.map fun x => (x.1, x.2.1)) ∧
      (integrateAll initAcc ds).cumulative_capacity_ah =
        spec_trapezoidal_sum (ds.map fun x => (x.1, x.2.2)) := by
    cases ds with
    | nil =>
        constructor <;> simp [integrateAll, spec_trapezoidal_sum, initAcc]
    | cons d rest =>
        have hst : (integrateTick initAcc d.1 d.2.1 d.2.2).last_measurement_time =
            some d.1 := by
          simp [integrateTick, initAcc]
        obtain ⟨h1, h2⟩ := integrateAll_from rest
          (integrateTick initAcc d.1 d.2.1 d.2.2) d.1 hst
        constructor
        · simp only [integrateAll, List.map_cons, spec_trapezoidal_sum]
          rw [h1]
          simp [integrateTick, initAcc]
        · simp only [integrateAll, List.map_cons, spec_trapezoidal_sum]
          rw [h2]
          simp [integrateTick, initAcc]
  exact ⟨hmain.1, hmain.2, hsingle⟩

/-- Shutdown counts add over concatenation. -/
theorem countShutdowns_append :
    ∀ l m : List Ev, countShutdowns (l ++ m) = countShutdowns l + countShutdowns m := by
  intro l m
  induction l with
  | nil => simp [countShutdowns]
  | cons e rest ih =>
      cases e <;> (simp [countShutdowns, ih]; try omega)

/-- Shutdown-freedom splits over concatenation. -/
theorem noShutdown_append :
    ∀ l m : List Ev, noShutdown (l ++ m) = (noShutdown l && noShutdown m) := by
  intro l m
  induction l with
  | nil => rfl
  | cons e rest ih => cases e <;> simp [noShutdown, ih]

/-- Zero-power-command purity splits over concatenation. -/
theorem allPowZero_append :
    ∀ l m : List Ev, allPowZero (l ++ m) = (allPowZero l && allPowZero m) := by
  intro l m
  induction l with
  | nil => rfl
  | cons e rest ih => cases e <;> simp [allPowZero, ih, Bool.and_assoc]

/-- A shutdown-free prefix is skipped when locating the first shutdown. -/
theorem nnpas_append_noShutdown :
    ∀ l m : List Ev, noShutdown l = true →
      noNonzeroPowAfterShutdown (l ++ m) = noNonzeroPowAfterShutdown m := by
  intro l
  induction l with
  | nil => intro m _; rfl
  | cons e rest ih =>
      intro m h
      cases e <;>
        first
          | exact ih m h
          | simp [noShutdown] at h

/-- A trace all of whose power commands carry 0 satisfies the
after-shutdown property outright. -/
theorem nnpas_of_allPowZero :
    ∀ l : List Ev, allPowZero l = true → noNonzeroPowAfterShutdown l = true := by
  intro l
  induction l with
  | nil => intro _; rfl
  | cons e rest ih =>
      intro h
      cases e <;>
        first
          | (simp only [allPowZero, Bool.and_eq_true] at h; exact ih h.2)
          | exact h
          | exact ih h

/-- Row events contain no shutdown marker. -/
theorem rowIdxs_noShutdown : ∀ k n, noShutdown (rowIdxs n k) = true := by
  intro k
  induction k with
  | zero => intro n; rfl
  | succ k ih => intro n; exact ih (n + 1)

/-- Row events count no shutdowns. -/
theorem rowIdxs_countShutdowns : ∀ k n, countShutdowns (rowIdxs n k) = 0 := by
  intro k
  induction k with
  | zero => intro n; rfl
  | succ k ih => intro n; exact ih (n + 1)

/-- The command tail of one shutdown trace has only zero power commands. -/
theorem allPowZero_shutdownTail :
    allPowZero ((safe_shutdown_attempts fun _ => false).map fun p =>
      scmdToEv p.1) = true := by
  simp [safe_shutdown_attempts, attemptCmd, scmdToEv, allPowZero]

/-- A full shutdown trace has only zero power commands. -/
theorem allPowZero_shutdownEvents : allPowZero shutdownEvents = true :=
  allPowZero_shutdownTail

/-- The `finally` block issues only zero power commands. -/
theorem allPowZero_finallyEvents : allPowZero finallyEvents = true := by
  simp [finallyEvents, allPowZero]

/-- The `finally` block contains no shutdown invocation marker. -/
theorem noShutdown_finallyEvents : noShutdown finallyEvents = true := rfl

/-- One shutdown counts one. -/
theorem countShutdowns_shutdownEvents : countShutdowns shutdownEvents = 1 := rfl

/-- After a shutdown trace, a zero-power-pure continuation keeps the
after-shutdown property. -/
theorem nnpas_shutdown_prefix :
    ∀ m : List Ev, allPowZero m = true →
      noNonzeroPowAfterShutdown (shutdownEvents ++ m) = true := by
  intro m h
  show allPowZero (((safe_shutdown_attempts fun _ => false).map fun p =>
    scmdToEv p.1) ++ m) = true
  rw [allPowZero_append, allPowZero_shutdownTail, h]
  rfl

/-- The events of one tick body are the row write when no safety check
tripped (and the writer is open), nothing otherwise. -/
theorem tickBody_events :
    ∀ (s : Settings) (c : Bool) (limit ts : ℚ) (acc : AccState) (n : ℕ)
      (d : TickData),
      (tickBody s c limit ts acc n d).events =
        match (tickBody s c limit ts acc n d).trip with
        | some _ => []
        | none => if c then [Ev.rowWritten n] else [] :=
  fun _ _ _ _ _ _ _ => rfl

/-- Row-write events of a trip-free tick body. -/
theorem tickBody_events_none :
    ∀ {s : Settings} {c : Bool} {limit ts : ℚ} {acc : AccState} {n : ℕ}
      {d : TickData},
      (tickBody s c limit ts acc n d).trip = none →
      (tickBody s c limit ts acc n d).events =
        if c then [Ev.rowWritten n] else [] := by
  intro s c limit ts acc n d h
  rw [tickBody_events, h]

/-- Structure of one step loop's trace: some number `k` of row writes for
consecutive tick indices (when the writer is open), followed by the
shutdown invocations of the exit path; a trip executes one tick beyond
the rows written (the trip tick itself gets no row). -/
theorem runStepLoop_struct (s : Settings) (fd : Option ℚ) (ss : ℚ) (c : Bool) :
    ∀ (ticks : List TickData) (acc : AccState) (limit : ℚ) (stopFlag : Bool)
      (n : ℕ),
      ∃ k : ℕ,
        (runStepLoop s fd ss c ticks acc limit stopFlag n).events =
          (if c then rowIdxs n k else []) ++
            exitSuffix (runStepLoop s fd ss c ticks acc limit stopFlag n).exit ∧
        (runStepLoop s fd ss c ticks acc limit stopFlag n).nextIdx =
          n + k +
            (if isTripped (runStepLoop s fd ss c ticks acc limit stopFlag n).exit
              then 1 else 0) := by
  intro ticks
  induction ticks with
  | nil =>
      intro acc limit stopFlag n
      refine ⟨0, ?_, ?_⟩ <;>
        by_cases h : stopFlag = true <;>
          simp [runStepLoop, h, exitSuffix, isTripped, rowIdxs]
  | cons d rest ih =>
      intro acc limit stopFlag n
      by_cases hstop : stopFlag = true
      · refine ⟨0, ?_, ?_⟩ <;>
          simp [runStepLoop, hstop, exitSuffix, isTripped, rowIdxs]
      · by_cases htime : timeExpired fd ss d.t = true
        · refine ⟨0, ?_, ?_⟩ <;>
            simp [runStepLoop, hstop, htime, exitSuffix, isTripped, rowIdxs]
        · cases htrip : (tickBody s c limit ss acc n d).trip with
          | some reason =>
              refine ⟨0, ?_, ?_⟩ <;>
                simp [runStepLoop, hstop, htime, htrip, exitSuffix, isTripped,
                  rowIdxs]
          | none =>
              have hev := tickBody_events_none htrip
              by_cases hsleep : d.stop_during_sleep = true
              · refine ⟨1, ?_, ?_⟩ <;>
                  simp [runStepLoop, hstop, htime, htrip, hsleep, hev,
                    exitSuffix, isTripped, rowIdxs]
              · obtain ⟨k, h1, h2⟩ :=
                  ih (tickBody s c limit ss acc n d).acc
                    (tickBody s c limit ss acc n d).limit false (n + 1)
                refine ⟨k + 1, ?_, ?_⟩
                · simp only [runStepLoop, hstop, htime, htrip, hsleep,
                    if_neg, Bool.false_eq_true, not_false_eq_true]
                  simp [hstop, htime, hsleep, hev, h1, rowIdxs]
                  cases c <;> simp [List.append_assoc]
                · simp only [runStepLoop]
                  simp [hstop, htime, htrip, hsleep, h2]
                  omega

/-- Shutdown count of an exit path. -/
theorem countShutdowns_exitSuffix :
    ∀ e : StepExit, countShutdowns (exitSuffix e) = stepExitShutdownCount e := by
  intro e
  cases e <;> rfl

/-- Optional row prefixes contain no shutdown marker. -/
theorem noShutdown_rowsIf :
    ∀ (c : Bool) (n k : ℕ), noShutdown (if c then rowIdxs n k else []) = true := by
  intro c n k
  cases c
  · rfl
  · simp [rowIdxs_noShutdown]

/-- Optional row prefixes count no shutdowns. -/
theorem countShutdowns_rowsIf :
    ∀ (c : Bool) (n k : ℕ), countShutdowns (if c then rowIdxs n k else []) = 0 := by
  intro c n k
  cases c
  · rfl
  · simp [rowIdxs_countShutdowns]

/-- The shutdown count of a step loop's trace is determined by its exit:
two on a trip, one on a stop, none otherwise. -/
theorem runStepLoop_count (s : Settings) (fd : Option ℚ) (ss : ℚ) (c : Bool) :
    ∀ (ticks : List TickData) (acc : AccState) (limit : ℚ) (stopFlag : Bool)
      (n : ℕ),
      countShutdowns (runStepLoop s fd ss c ticks acc limit stopFlag n).events =
        stepExitShutdownCount
          (runStepLoop s fd ss c ticks acc limit stopFlag n).exit := by
  intro ticks acc limit stopFlag n
  obtain ⟨k, h1, _⟩ := runStepLoop_struct s fd ss c ticks acc limit stopFlag n
  rw [h1, countShutdowns_append, countShutdowns_exitSuffix,
    countShutdowns_rowsIf]
  omega

/-- A step loop that ended by time-up or by exhausting its input performed
no shutdown. -/
theorem runStepLoop_noShutdown (s : Settings) (fd : Option ℚ) (ss : ℚ)
    (c : Bool) (ticks : List TickData) (acc : AccState) (limit : ℚ)
    (stopFlag : Bool) (n : ℕ)
    (h : stepExitShutdownCount
      (runStepLoop s fd ss c ticks acc limit stopFlag n).exit = 0) :
    noShutdown (runStepLoop s fd ss c ticks acc limit stopFlag n).events = true := by
  obtain ⟨k, h1, _⟩ := runStepLoop_struct s fd ss c ticks acc limit stopFlag n
  rw [h1, noShutdown_append, noShutdown_rowsIf]
  cases hexit : (runStepLoop s fd ss c ticks acc limit stopFlag n).exit <;>
    simp only [hexit, stepExitShutdownCount] at h ⊢ <;>
    first
      | rfl
      | omega

/-- After the exit path of a step loop, a zero-power-pure continuation
keeps the after-shutdown property. -/
theorem nnpas_exitSuffix_append :
    ∀ (e : StepExit) (tail : List Ev), allPowZero tail = true →
      noNonzeroPowAfterShutdown (exitSuffix e ++ tail) = true := by
  intro e tail h
  cases e with
  | tripped r =>
      show noNonzeroPowAfterShutdown
        ((shutdownEvents ++ shutdownEvents) ++ tail) = true
      rw [List.append_assoc]
      exact nnpas_shutdown_prefix _
        (by simp [allPowZero_append, allPowZero_shutdownEvents, h])
  | stopped => exact nnpas_shutdown_prefix tail h
  | ranOut => exact nnpas_of_allPowZero tail h
  | timeUp => exact nnpas_of_allPowZero tail h

/-- A step loop's trace followed by a zero-power-pure continuation
satisfies the after-shutdown property. -/
theorem runStepLoop_nnpas (s : Settings) (fd : Option ℚ) (ss : ℚ) (c : Bool)
    (ticks : List TickData) (acc : AccState) (limit : ℚ) (stopFlag : Bool)
    (n : ℕ) (tail : List Ev) (h : allPowZero tail = true) :
    noNonzeroPowAfterShutdown
      ((runStepLoop s fd ss c ticks acc limit stopFlag n).events ++ tail) =
      true := by
  obtain ⟨k, h1, _⟩ := runStepLoop_struct s fd ss c ticks acc limit stopFlag n
  rw [h1, List.append_assoc,
    nnpas_append_noShutdown _ _ (noShutdown_rowsIf c n k)]
  exact nnpas_exitSuffix_append _ tail h

/-- The step-start command block contains no shutdown marker. -/
theorem noShutdown_startBlock :
    ∀ p : ℚ, noShutdown [Ev.powCmd true p, Ev.powCmd false p,
      Ev.loadOnCmd true, Ev.loadOnCmd false] = true :=
  fun _ => rfl

/-- The step-complete command block contains no shutdown marker. -/
theorem noShutdown_completeBlock :
    noShutdown [Ev.powCmd true 0, Ev.powCmd false 0,
      Ev.loadOffCmd true, Ev.loadOffCmd false] = true := rfl

/-- The step-start command block counts no shutdowns. -/
theorem countShutdowns_startBlock :
    ∀ p : ℚ, countShutdowns [Ev.powCmd true p, Ev.powCmd false p,
      Ev.loadOnCmd true, Ev.loadOnCmd false] = 0 :=
  fun _ => rfl

/-- The shutdown count of the profile loop's trace is determined by the
run's exit: two on a trip, one on a stop or completion, none otherwise. -/
theorem runSteps_count (s : Settings) (c : Bool) :
    ∀ (steps : List StepInput) (acc : AccState) (stopFlag : Bool) (n : ℕ),
      countShutdowns (runSteps s c steps acc stopFlag n).1 =
        runExitShutdownCount (runSteps s c steps acc stopFlag n).2 := by
  intro steps
  induction steps with
  | nil => intro acc stopFlag n; rfl
  | cons st rest ih =>
      intro acc stopFlag n
      simp only [runSteps]
      by_cases hstop : (stopFlag || st.stop_before) = true
      · simp [hstop, runExitShutdownCount, countShutdowns_shutdownEvents]
      · simp only [hstop, Bool.false_eq_true, if_false]
        split
        all_goals
          rename_i heq
        case _ =>
          -- timeUp: start ++ o.events ++ complete ++ recursion
          simp only [countShutdowns_append, countShutdowns_startBlock,
            runStepLoop_count, heq, stepExitShutdownCount, ih]
          simp [countShutdowns]
        all_goals
          simp [countShutdowns_append, countShutdowns_startBlock,
            runStepLoop_count, heq, stepExitShutdownCount,
            runExitShutdownCount, countShutdowns]

/-- The profile loop's trace followed by a zero-power-pure continuation
satisfies the after-shutdown property: every power command after the
first shutdown carries 0. -/
theorem runSteps_nnpas (s : Settings) (c : Bool) :
    ∀ (steps : List StepInput) (acc : AccState) (stopFlag : Bool) (n : ℕ)
      (tail : List Ev), allPowZero tail = true →
      noNonzeroPowAfterShutdown ((runSteps s c steps acc stopFlag n).1 ++ tail) =
        true := by
  intro steps
  induction steps with
  | nil => intro acc stopFlag n tail h; exact nnpas_shutdown_prefix tail h
  | cons st rest ih =>
      intro acc stopFlag n tail h
      simp only [runSteps]
      by_cases hstop : (stopFlag || st.stop_before) = true
      · simp only [hstop, if_true]
        exact nnpas_shutdown_prefix tail h
      · simp only [hstop, Bool.false_eq_true, if_false]
        split
        all_goals
          rename_i heq
        case _ =>
          -- timeUp: start ++ o.events ++ complete ++ recursion
          rw [List.append_assoc, List.append_assoc, List.append_assoc,
            nnpas_append_noShutdown _ _ (noShutdown_startBlock _),
            nnpas_append_noShutdown _ _
              (runStepLoop_noShutdown _ _ _ _ _ _ _ _ _ (by rw [heq]; rfl)),
            nnpas_append_noShutdown _ _ noShutdown_completeBlock]
          exact ih _ _ _ tail h
        all_goals
          rw [List.append_assoc,
            nnpas_append_noShutdown _ _ (noShutdown_startBlock _)]
          exact runStepLoop_nnpas _ _ _ _ _ _ _ _ _ tail h

/-- The `finally` block counts no shutdown invocation. -/
theorem countShutdowns_finallyEvents : countShutdowns finallyEvents = 0 := rfl

/-- C1 counterexample: on a run whose first tick trips the power-imbalance
check, the safe-shutdown sequence is invoked twice — once at the trip site
and once by the post-loop stop-flag check — not exactly once as claimed. -/
theorem c1_counterexample :
    (runWorker sTrip inpTrip).2 = RunExit.tripped Reason.powerImb ∧
    countShutdowns (runWorker sTrip inpTrip).1 ≠ 1 := by
  refine ⟨?_, ?_⟩ <;>
    norm_num [runWorker, runSteps, runStepLoop, tickBody, tripCheck, inpTrip,
      stepTrip, sTrip, dTrip, timeExpired, bothPresentPos, imbalancePair,
      calculate_imbalances, totalOf, avgOf, integrateTick, calculate_dq_dv,
      initAcc, tickBreaches, breachesCutoff, calculate_energy_increment,
      countShutdowns, shutdownEvents, safe_shutdown_attempts, attemptCmd,
      scmdToEv, finallyEvents]

/-- C1 (amended): in every run in which an enabled safety trip occurs,
the safe-shutdown sequence is invoked exactly twice — once at the trip
site, and once more by the post-loop stop-flag check the trip's
`request_stop` arms — and no POW command with a non-zero value is sent to
either controller after the (first) shutdown begins. -/
theorem c1_amended_trip_shutdown :
    ∀ (s : Settings) (inp : RunInput) (r : Reason),
      (runWorker s inp).2 = RunExit.tripped r →
      countShutdowns (runWorker s inp).1 = 2 ∧
      noNonzeroPowAfterShutdown (runWorker s inp).1 = true := by
  intro s inp r h
  have hcnd : noShutdown
      (if inp.condFails then [Ev.condWarnLogged] else [Ev.condConfigured]) =
      true := by
    cases inp.condFails <;> rfl
  have hcndc : countShutdowns
      (if inp.condFails then [Ev.condWarnLogged] else [Ev.condConfigured]) =
      0 := by
    cases inp.condFails <;> rfl
  by_cases hopen : inp.openFails = true
  · simp [runWorker, hopen] at h
  · constructor
    · simp only [runWorker, hopen, Bool.false_eq_true, if_false] at h ⊢
      rw [countShutdowns_append, countShutdowns_append, runSteps_count, h,
        hcndc, countShutdowns_finallyEvents]
      rfl
    · simp only [runWorker, hopen, Bool.false_eq_true, if_false]
      rw [List.append_assoc, nnpas_append_noShutdown _ _ hcnd]
      exact runSteps_nnpas s inp.csvOpen inp.steps initAcc false 0
        finallyEvents allPowZero_finallyEvents

/-- C1 witness: the amended theorem evaluated on the concrete run whose
first tick trips the power-imbalance check. -/
theorem c1_amended_trip_shutdown_witness :
    countShutdowns (runWorker sTrip inpTrip).1 = 2 ∧
    noNonzeroPowAfterShutdown (runWorker sTrip inpTrip).1 = true :=
  c1_amended_trip_shutdown sTrip inpTrip Reason.powerImb (by
    norm_num [runWorker, runSteps, runStepLoop, tickBody, tripCheck, inpTrip,
      stepTrip, sTrip, dTrip, timeExpired, bothPresentPos, imbalancePair,
      calculate_imbalances, totalOf, avgOf, integrateTick, calculate_dq_dv,
      initAcc, tickBreaches, breachesCutoff, calculate_energy_increment])

/-- C2 counterexample: the concrete trip tick is executed (`nextIdx`
becomes 1) with the row file open, yet no row is written for it — its
trace is the two shutdown invocations and contains no row event. -/
theorem c2_counterexample :
    (runStepLoop sTrip none 0 true [dTrip] initAcc (1 / 4) false 0).exit =
      StepExit.tripped Reason.powerImb ∧
    (runStepLoop sTrip none 0 true [dTrip] initAcc (1 / 4) false 0).nextIdx =
      1 ∧
    Ev.rowWritten 0 ∉
      (runStepLoop sTrip none 0 true [dTrip] initAcc (1 / 4) false 0).events := by
  have hev : (runStepLoop sTrip none 0 true [dTrip] initAcc (1 / 4) false
      0).events = shutdownEvents ++ shutdownEvents := by
    norm_num [runStepLoop, tickBody, tripCheck, sTrip, dTrip, timeExpired,
      bothPresentPos, imbalancePair, calculate_imbalances, totalOf, avgOf,
      integrateTick, calculate_dq_dv, initAcc, tickBreaches, breachesCutoff,
      calculate_energy_increment]
  refine ⟨?_, ?_, ?_⟩
  · norm_num [runStepLoop, tickBody, tripCheck, sTrip, dTrip, timeExpired,
      bothPresentPos, imbalancePair, calculate_imbalances, totalOf, avgOf,
      integrateTick, calculate_dq_dv, initAcc, tickBreaches, breachesCutoff,
      calculate_energy_increment]
  · norm_num [runStepLoop, tickBody, tripCheck, sTrip, dTrip, timeExpired,
      bothPresentPos, imbalancePair, calculate_imbalances, totalOf, avgOf,
      integrateTick, calculate_dq_dv, initAcc, tickBreaches, breachesCutoff,
      calculate_energy_increment]
  · rw [hev]
    simp [shutdownEvents, safe_shutdown_attempts, attemptCmd, scmdToEv]

/-- C2 (amended): with the row file open, a step's loop writes exactly one
row per executed tick, in tick order — except the tick on which a safety
trip is detected: the loop breaks to the shutdown path before the row
write, so that one sample is not written. -/
theorem c2_amended_rows_written :
    ∀ (s : Settings) (fd : Option ℚ) (step_start : ℚ) (ticks : List TickData)
      (acc : AccState) (limit : ℚ) (n : ℕ),
      ∃ k : ℕ,
        (runStepLoop s fd step_start true ticks acc limit false n).events =
          rowIdxs n k ++
            exitSuffix
              (runStepLoop s fd step_start true ticks acc limit false n).exit ∧
        (runStepLoop s fd step_start true ticks acc limit false n).nextIdx =
          n + k +
            (if isTripped
                (runStepLoop s fd step_start true ticks acc limit false n).exit
              then 1 else 0) := by
  intro s fd ss ticks acc limit n
  obtain ⟨k, h1, h2⟩ := runStepLoop_struct s fd ss true ticks acc limit false n
  exact ⟨k, by simpa using h1, h2⟩

/-- C3 counterexample: with the conditioning block failing, the run does
not abort before the first profile step — the step's non-zero power
command is still sent — and the run does not take the open-failure abort
path. -/
theorem c3_counterexample :
    inpCond.condFails = true ∧
    Ev.powCmd true 50 ∈ (runWorker sTrip inpCond).1 ∧
    (runWorker sTrip inpCond).2 ≠ RunExit.openFailed := by
  refine ⟨rfl, ?_, ?_⟩
  · norm_num [runWorker, runSteps, runStepLoop, inpCond, sTrip, timeExpired,
      finallyEvents]
  · have hx : (runWorker sTrip inpCond).2 = RunExit.ranOut := by
      norm_num [runWorker, runSteps, runStepLoop, inpCond, sTrip, timeExpired]
    rw [hx]
    exact fun hh => RunExit.noConfusion hh

/-- C3 (amended): a failure of the one-time conditioning sequence does not
abort the run: it is logged as a warning and the profile steps execute
exactly as when conditioning succeeds (identical trace after the
conditioning log entry, identical exit); only a transport-open failure
aborts before any step, and then only the defensive `finally` commands
are issued. -/
theorem c3_amended_conditioning :
    ∀ (s : Settings) (inp : RunInput),
      (runWorker s { inp with condFails := true }).2 =
        (runWorker s { inp with condFails := false }).2 ∧
      (runWorker s { inp with condFails := true }).1.drop 1 =
        (runWorker s { inp with condFails := false }).1.drop 1 ∧
      (runWorker s { inp with openFails := true }).1 = finallyEvents ∧
      (runWorker s { inp with openFails := true }).2 = RunExit.openFailed := by
  intro s inp
  by_cases hopen : inp.openFails = true <;>
    refine ⟨?_, ?_, ?_, ?_⟩ <;>
      simp [runWorker, hopen]

/-- With imbalance checking disabled, the per-tick safety evaluation
reduces to the cutoff check. -/
theorem tripCheck_imb_disabled :
    ∀ s : Settings, s.imbalance_check_enabled = false →
      ∀ (limit : ℚ) (d : TickData) (p ci vi : ℚ),
        tripCheck s limit d p ci vi =
          if s.cutoff_safety_enabled && tickBreaches s d then
            some Reason.cutoff
          else none := by
  intro s h limit d p ci vi
  simp [tripCheck, h]

/-- With imbalance checking and cutoff safety both disabled, no tick
trips. -/
theorem tripCheck_all_disabled :
    ∀ s : Settings, s.imbalance_check_enabled = false →
      s.cutoff_safety_enabled = false →
      ∀ (limit : ℚ) (d : TickData) (p ci vi : ℚ),
        tripCheck s limit d p ci vi = none := by
  intro s h1 h2 limit d p ci vi
  simp [tripCheck, h1, h2]

/-- The trip decision of one tick body: the safety evaluation at the
window-appropriate imbalance limit, on the tick's imbalance values. -/
theorem tickBody_trip :
    ∀ (s : Settings) (c : Bool) (limit ts : ℚ) (acc : AccState) (n : ℕ)
      (d : TickData),
      (tickBody s c limit ts acc n d).trip =
        tripCheck s
          (if s.transition_duration < d.t - ts then s.imbalance_limit
            else limit) d
          (imbalancePair d.mp d.sp) (imbalancePair d.mi d.si)
          (imbalancePair d.mv d.sv) :=
  fun _ _ _ _ _ _ _ => rfl

/-- A run-until-cutoff loop can never exit through the time guard. -/
theorem runStepLoop_cutoff_no_timeUp :
    ∀ (s : Settings) (ss : ℚ) (c : Bool) (ticks : List TickData)
      (acc : AccState) (limit : ℚ) (stopFlag : Bool) (n : ℕ),
      (runStepLoop s none ss c ticks acc limit stopFlag n).exit ≠
        StepExit.timeUp := by
  intro s ss c ticks
  induction ticks with
  | nil =>
      intro acc limit stopFlag n
      by_cases h : stopFlag = true <;> simp [runStepLoop, h]
  | cons d rest ih =>
      intro acc limit stopFlag n
      by_cases h : stopFlag = true
      · simp [runStepLoop, h]
      · cases htrip : (tickBody s c limit ss acc n d).trip with
        | some reason => simp [runStepLoop, h, timeExpired, htrip]
        | none =>
            by_cases hsleep : d.stop_during_sleep = true
            · simp [runStepLoop, h, timeExpired, htrip, hsleep]
            · have hred :
                  (runStepLoop s none ss c (d :: rest) acc limit false
                    n).exit =
                  (runStepLoop s none ss c rest
                    (tickBody s c limit ss acc n d).acc
                    (tickBody s c limit ss acc n d).limit false (n + 1)).exit := by
                simp [runStepLoop, timeExpired, htrip, hsleep]
              simp only [h, Bool.not_eq_true] at *
              rw [hred]
              exact ih _ _ _ _

/-- With imbalance checking disabled, cutoff safety enabled and no stop
request, a run-until-cutoff loop trips `cutoff` exactly when some tick
breaches the cutoff voltage, and otherwise consumes all its input with
the loop still live. -/
theorem runStepLoop_cutoff_characterization :
    ∀ (s : Settings) (ss : ℚ) (c : Bool), s.imbalance_check_enabled = false →
      s.cutoff_safety_enabled = true →
      ∀ ticks : List TickData, (∀ d ∈ ticks, d.stop_during_sleep = false) →
        ∀ (acc : AccState) (limit : ℚ) (n : ℕ),
          ((runStepLoop s none ss c ticks acc limit false n).exit =
              StepExit.tripped Reason.cutoff ∧
            ∃ d ∈ ticks, tickBreaches s d = true) ∨
          ((runStepLoop s none ss c ticks acc limit false n).exit =
              StepExit.ranOut ∧
            ∀ d ∈ ticks, tickBreaches s d = false) := by
  intro s ss c h1 h2 ticks
  induction ticks with
  | nil =>
      intro _ acc limit n
      right
      refine ⟨by simp [runStepLoop], ?_⟩
      intro d hd
      cases hd
  | cons d rest ih =>
      intro hstops acc limit n
      have htrip := tickBody_trip s c limit ss acc n d
      rw [tripCheck_imb_disabled s h1, h2] at htrip
      cases hbr : tickBreaches s d with
      | true =>
          rw [hbr] at htrip
          simp only [Bool.and_true, if_true, Bool.and_self, ite_true] at htrip
          left
          refine ⟨?_, ⟨d, List.mem_cons_self d rest, hbr⟩⟩
          simp [runStepLoop, timeExpired, htrip]
      | false =>
          rw [hbr] at htrip
          simp only [Bool.and_false, Bool.false_eq_true, if_false] at htrip
          have hsleep : d.stop_during_sleep = false :=
            hstops d (List.mem_cons_self d rest)
          have hrest : ∀ x ∈ rest, x.stop_during_sleep = false :=
            fun x hx => hstops x (List.mem_cons_of_mem d hx)
          have hred :
              (runStepLoop s none ss c (d :: rest) acc limit false n).exit =
              (runStepLoop s none ss c rest
                (tickBody s c limit ss acc n d).acc
                (tickBody s c limit ss acc n d).limit false (n + 1)).exit := by
            simp [runStepLoop, timeExpired, htrip, hsleep]
          rcases ih hrest (tickBody s c limit ss acc n d).acc
              (tickBody s c limit ss acc n d).limit (n + 1) with
            ⟨he, d2, hd2, hb⟩ | ⟨he, hall⟩
          · left
            exact ⟨by rw [hred, he], ⟨d2, List.mem_cons_of_mem d hd2, hb⟩⟩
          · right
            refine ⟨by rw [hred, he], ?_⟩
            intro x hx
            rcases List.mem_cons.mp hx with hx | hx
            · rw [hx]
              exact hbr
            · exact hall x hx

/-- With both safety families disabled and no stop request, a
fixed-duration loop exits through the time guard exactly when some tick's
elapsed time reaches the duration, and otherwise consumes all its input
with the loop still live. -/
theorem runStepLoop_fixed_characterization :
    ∀ (s : Settings) (dur ss : ℚ) (c : Bool),
      s.imbalance_check_enabled = false → s.cutoff_safety_enabled = false →
      ∀ ticks : List TickData, (∀ d ∈ ticks, d.stop_during_sleep = false) →
        ∀ (acc : AccState) (limit : ℚ) (n : ℕ),
          ((runStepLoop s (some dur) ss c ticks acc limit false n).exit =
              StepExit.timeUp ∧ ∃ d ∈ ticks, dur ≤ d.t - ss) ∨
          ((runStepLoop s (some dur) ss c ticks acc limit false n).exit =
              StepExit.ranOut ∧ ∀ d ∈ ticks, d.t - ss < dur) := by
  intro s dur ss c h1 h2 ticks
  induction ticks with
  | nil =>
      intro _ acc limit n
      right
      refine ⟨by simp [runStepLoop], ?_⟩
      intro d hd
      cases hd
  | cons d rest ih =>
      intro hstops acc limit n
      by_cases htime : dur ≤ d.t - ss
      · left
        refine ⟨?_, ⟨d, List.mem_cons_self d rest, htime⟩⟩
        simp [runStepLoop, timeExpired, htime]
      · have htrip := tickBody_trip s c limit ss acc n d
        rw [tripCheck_all_disabled s h1 h2] at htrip
        have hsleep : d.stop_during_sleep = false :=
          hstops d (List.mem_cons_self d rest)
        have hrest : ∀ x ∈ rest, x.stop_during_sleep = false :=
          fun x hx => hstops x (List.mem_cons_of_mem d hx)
        have hred :
            (runStepLoop s (some dur) ss c (d :: rest) acc limit false
              n).exit =
            (runStepLoop s (some dur) ss c rest
              (tickBody s c limit ss acc n d).acc
              (tickBody s c limit ss acc n d).limit false (n + 1)).exit := by
          simp [runStepLoop, timeExpired, htime, htrip, hsleep]
        rcases ih hrest (tickBody s c limit ss acc n d).acc
            (tickBody s c limit ss acc n d).limit (n + 1) with
          ⟨he, d2, hd2, hb⟩ | ⟨he, hall⟩
        · left
          exact ⟨by rw [hred, he], ⟨d2, List.mem_cons_of_mem d hd2, hb⟩⟩
        · right
          refine ⟨by rw [hred, he], ?_⟩
          intro x hx
          rcases List.mem_cons.mp hx with hx | hx
          · rw [hx]
            exact not_le.mp htime
          · exact hall x hx

/-- C4: a fixed-duration step ends strictly on elapsed wall-clock time —
the moment a tick's elapsed time reaches the configured duration the loop
exits time-up immediately, whatever that tick or later ticks read, and,
absent external interrupts (no stop request, no enabled safety check),
it ends time-up exactly when some tick reaches the duration; a
run-until-cutoff step has no time bound — its loop can never exit through
the time guard — and, absent external interrupts, with cutoff safety
enabled it ends exactly on a detected voltage-cutoff breach, running on
indefinitely when no tick breaches. -/
theorem c4_step_termination :
    (∀ (s : Settings) (dur ss : ℚ) (c : Bool) (acc : AccState) (limit : ℚ)
      (n : ℕ) (d : TickData) (rest : List TickData), dur ≤ d.t - ss →
      runStepLoop s (some dur) ss c (d :: rest) acc limit false n =
        { events := [], exit := StepExit.timeUp, acc := acc,
          stopFlag := false, nextIdx := n }) ∧
    (∀ (s : Settings) (ss : ℚ) (c : Bool) (ticks : List TickData)
      (acc : AccState) (limit : ℚ) (stopFlag : Bool) (n : ℕ),
      (runStepLoop s none ss c ticks acc limit stopFlag n).exit ≠
        StepExit.timeUp) ∧
    (∀ (s : Settings) (ss : ℚ) (c : Bool), s.imbalance_check_enabled = false →
      s.cutoff_safety_enabled = true →
      ∀ ticks : List TickData, (∀ d ∈ ticks, d.stop_during_sleep = false) →
        ∀ (acc : AccState) (limit : ℚ) (n : ℕ),
          ((runStepLoop s none ss c ticks acc limit false n).exit =
              StepExit.tripped Reason.cutoff ∧
            ∃ d ∈ ticks, tickBreaches s d = true) ∨
          ((runStepLoop s none ss c ticks acc limit false n).exit =
              StepExit.ranOut ∧
            ∀ d ∈ ticks, tickBreaches s d = false)) ∧
    (∀ (s : Settings) (dur ss : ℚ) (c : Bool),
      s.imbalance_check_enabled = false → s.cutoff_safety_enabled = false →
      ∀ ticks : List TickData, (∀ d ∈ ticks, d.stop_during_sleep = false) →
        ∀ (acc : AccState) (limit : ℚ) (n : ℕ),
          ((runStepLoop s (some dur) ss c ticks acc limit false n).exit =
              StepExit.timeUp ∧ ∃ d ∈ ticks, dur ≤ d.t - ss) ∨
          ((runStepLoop s (some dur) ss c ticks acc limit false n).exit =
              StepExit.ranOut ∧ ∀ d ∈ ticks, d.t - ss < dur)) := by
  refine ⟨?_, runStepLoop_cutoff_no_timeUp,
    runStepLoop_cutoff_characterization, runStepLoop_fixed_characterization⟩
  intro s dur ss c acc limit n d rest h
  simp [runStepLoop, timeExpired, h]

/-- C4 witness: the termination theorem evaluated on a fixed-duration
step whose first tick reaches the 10 s duration, and on a cutoff step
whose first tick breaches the 180 V cutoff. -/
theorem c4_step_termination_witness :
    runStepLoop sTrip (some 10) 0 true [dExp] initAcc (1 / 4) false 0 =
      { events := [], exit := StepExit.timeUp, acc := initAcc,
        stopFlag := false, nextIdx := 0 } ∧
    (((runStepLoop sCut none 0 true [dCut] initAcc (1 / 4) false 0).exit =
        StepExit.tripped Reason.cutoff ∧
      ∃ d ∈ [dCut], tickBreaches sCut d = true) ∨
     ((runStepLoop sCut none 0 true [dCut] initAcc (1 / 4) false 0).exit =
        StepExit.ranOut ∧ ∀ d ∈ [dCut], tickBreaches sCut d = false)) :=
  ⟨c4_step_termination.1 sTrip 10 0 true initAcc (1 / 4) 0 dExp []
      (by norm_num [dExp]),
   c4_step_termination.2.2.1 sCut 0 true rfl rfl [dCut]
      (by
        intro d hd
        rw [List.mem_singleton] at hd
        rw [hd]
        rfl)
      initAcc (1 / 4) 0⟩

end MSLoad
